import Mathlib

/-!
Shallow embedding of the def command-line tool (a personal path-annotation
tool written in Rust). The core is the Describer of src/lib.rs: two
string-to-string maps (exact descriptions and patterns) with a two-tier
lookup, JSON persistence, plus the command-line argument parser of
src/command.rs and the exit behaviour of src/main.rs and src/errors.rs.

Strings are modelled as lists of characters (Str), and the Rust HashMap
of strings as an association list whose lookup semantics mirror
HashMap::get / HashMap::insert; a materialised HashMap never holds two
bindings for the same key, which appears below as a Nodup hypothesis on
the key list where it matters.
-/

/-- Paths, descriptions and patterns are opaque strings; modelled as lists
of characters so that splitting and substitution are structural. -/
abbrev Str := List Char

/-- Directory seperator, of src/lib.rs. -/
def SEPERATOR : Char := '/'

/-- Place holder character in patterns, of src/lib.rs. -/
def DIRECTORY_PLACEHOLDER : Char := '*'

/-- Lookup in an association list, mirroring HashMap::get. -/
def lookupKV : List (Str × Str) → Str → Option Str
  | [], _ => none
  | (k, v) :: rest, k' => if k = k' then some v else lookupKV rest k'

/-- Remove every binding of a key, helper for insertKV and for stating
that patterns never self-apply. -/
def eraseKey : List (Str × Str) → Str → List (Str × Str)
  | [], _ => []
  | (k', v) :: rest, k => if k' = k then eraseKey rest k else (k', v) :: eraseKey rest k

/-- Insert a binding, overwriting any existing one, mirroring
HashMap::insert. -/
def insertKV (m : List (Str × Str)) (k v : Str) : List (Str × Str) :=
  (k, v) :: eraseKey m k

/-- The Describer of src/lib.rs: a map of exact directory descriptions and
a map of pattern descriptions. -/
structure Describer where
  descriptions : List (Str × Str)
  patterns : List (Str × Str)
  deriving DecidableEq

/-- Describer::new of src/lib.rs: the empty describer. -/
def Describer.new : Describer :=
  { descriptions := [], patterns := [] }

/-- Describer::new_with of src/lib.rs: build from two given maps, no
validation. -/
def Describer.new_with (d p : List (Str × Str)) : Describer :=
  { descriptions := d, patterns := p }

/-- Models str::rsplitn(2, sep): split at the LAST occurrence of sep into
(parent, leaf); none when the separator does not occur. In the source the
two pieces come back as a vector of length two, leaf first. -/
def rsplit2 (sep : Char) : Str → Option (Str × Str)
  | [] => none
  | c :: rest =>
    match rsplit2 sep rest with
    | some (p, l) => some (c :: p, l)
    | none => if c = sep then some ([], rest) else none

/-- Models str::replace with a single-character pattern: every occurrence
of c in t is replaced, in one pass, by the string r. -/
def replaceChar : Str → Char → Str → Str
  | [], _, _ => []
  | x :: rest, c, r => (if x = c then r else [x]) ++ replaceChar rest c r

/-- Describer::describe_using_pattern of src/lib.rs: split the directory at
the last separator; if there is no separator return none, otherwise look
the parent up in the patterns map and substitute the leaf for every place
holder. -/
def Describer.describe_using_pattern (d : Describer) (directory : Str) : Option Str :=
  match rsplit2 SEPERATOR directory with
  | none => none
  | some (parent, leaf) =>
    match lookupKV d.patterns parent with
    | some p => some (replaceChar p DIRECTORY_PLACEHOLDER leaf)
    | none => none

/-- Describer::describe of src/lib.rs: the descriptions map is checked
first; if no exact description exists the patterns map is consulted
through describe_using_pattern. -/
def Describer.describe (d : Describer) (directory : Str) : Option Str :=
  match lookupKV d.descriptions directory with
  | some v => some v
  | none => d.describe_using_pattern directory

/-- Describer::add_description of src/lib.rs. -/
def Describer.add_description (d : Describer) (path desc : Str) : Describer :=
  { d with descriptions := insertKV d.descriptions path desc }

/-- Describer::add_pattern of src/lib.rs. -/
def Describer.add_pattern (d : Describer) (path desc : Str) : Describer :=
  { d with patterns := insertKV d.patterns path desc }

/-- Counts occurrences of a character, used to state that wildcard
substitution is single-pass. -/
def countChar : Str → Char → Nat
  | [], _ => 0
  | x :: rest, c => (if x = c then 1 else 0) + countChar rest c

/-! JSON persistence, modelled at the level of JSON values. The textual
layer (serde_json parsing and printing, string escaping, the pretty flag)
is external library code; the derived Serialize and Deserialize of the
Describer struct determine its shape: an object with the two required
fields, each a map from strings to strings. -/

/-- JSON values. -/
inductive Json where
  | null : Json
  | bool : Bool → Json
  | num : Int → Json
  | str : Str → Json
  | arr : List Json → Json
  | obj : List (Str × Json) → Json

/-- Error type standing for serde_json::Error on deserialization. -/
inductive DeserializeError where
  | notAnObject : DeserializeError
  | missingField : DeserializeError
  | wrongType : DeserializeError
  deriving DecidableEq

/-- Key of the descriptions field of the wire format. -/
def descKey : Str := "descriptions".toList

/-- Key of the patterns field of the wire format. -/
def patKey : Str := "patterns".toList

/-- First field of the given name in a JSON object. -/
def findField : List (Str × Json) → Str → Option Json
  | [], _ => none
  | (k, v) :: rest, k' => if k = k' then some v else findField rest k'

/-- Values of a JSON object read as strings; any non-string value is a
type error, mirroring the derived Deserialize of a string map. -/
def asStringEntries : List (Str × Json) → Except DeserializeError (List (Str × Str))
  | [] => Except.ok []
  | (k, Json.str v) :: rest =>
    match asStringEntries rest with
    | Except.ok r => Except.ok ((k, v) :: r)
    | Except.error e => Except.error e
  | (_, _) :: _ => Except.error DeserializeError.wrongType

/-- A HashMap built from entries in order, later bindings overwriting
earlier ones, mirroring map deserialization. -/
def hashMapFromEntries (l : List (Str × Str)) : List (Str × Str) :=
  l.foldl (fun m p => insertKV m p.1 p.2) []

/-- A JSON value read as a string-to-string map: it must be an object and
every value must be a string. -/
def asStringMap : Json → Except DeserializeError (List (Str × Str))
  | Json.obj fields =>
    match asStringEntries fields with
    | Except.ok l => Except.ok (hashMapFromEntries l)
    | Except.error e => Except.error e
  | _ => Except.error DeserializeError.wrongType

/-- Describer::new_from_json of src/lib.rs, at the JSON value level: the
value must be an object holding both required fields, each a string map;
otherwise a deserialization error is returned (never a default describer). -/
def describerFromJson : Json → Except DeserializeError Describer
  | Json.obj fields =>
    match findField fields descKey, findField fields patKey with
    | some dj, some pj =>
      match asStringMap dj, asStringMap pj with
      | Except.ok dm, Except.ok pm => Except.ok (Describer.new_with dm pm)
      | Except.error e, _ => Except.error e
      | _, Except.error e => Except.error e
    | _, _ => Except.error DeserializeError.missingField
  | _ => Except.error DeserializeError.notAnObject

/-- Serialization of the Describer state, per the derived Serialize: an
object with the descriptions and patterns fields, each a string map. -/
def describerToJson (d : Describer) : Json :=
  Json.obj
    [(descKey, Json.obj (d.descriptions.map (fun p => (p.1, Json.str p.2)))),
     (patKey, Json.obj (d.patterns.map (fun p => (p.1, Json.str p.2))))]

/-- Describer::to_json of src/lib.rs: serialization of a describer always
succeeds; the pretty flag only selects text formatting, which does not
affect the value. -/
def Describer.to_json (d : Describer) (pretty : Bool) : Except Unit Json :=
  if pretty then Except.ok (describerToJson d) else Except.ok (describerToJson d)

/-- Characterisation of the inputs describerFromJson accepts: an object
with both fields present and both well-typed as string maps. -/
def jsonWellShaped : Json → Bool
  | Json.obj fields =>
    match findField fields descKey, findField fields patKey with
    | some dj, some pj =>
      (asStringMap dj).toBool && (asStringMap pj).toBool
    | _, _ => false
  | _ => false

/-! Command-line parsing, src/command.rs. -/

/-- ADD_FLAG of src/command.rs. -/
def ADD_FLAG : String := "-add"

/-- PATTERN_FLAG of src/command.rs. -/
def PATTERN_FLAG : String := "-pattern"

/-- HELP_FLAG of src/command.rs. -/
def HELP_FLAG : String := "-help"

/-- InvokedTo of src/command.rs: the recognised invocations. -/
inductive InvokedTo where
  | ShortHelp : InvokedTo
  | Help : InvokedTo
  | DescribePath : String → InvokedTo
  | AddDescription : String → String → InvokedTo
  | AddPattern : String → String → InvokedTo
  | Unknown : InvokedTo
  deriving DecidableEq

/-- Config of src/command.rs: data extracted from the command line. -/
structure Config where
  path : Option String
  description : Option String
  help : Bool
  short_help : Bool
  add_description : Bool
  add_pattern : Bool
  deriving DecidableEq

/-- ConfigError of src/command.rs. -/
structure ConfigError where
  message : String
  deriving DecidableEq

/-- invocation_pattern of src/command.rs: dispatch on the number of
arguments (the program name is args[0]); two arguments distinguish the
help flag from a path, four distinguish the add and pattern flags. -/
def invocation_pattern (args : List String) : InvokedTo :=
  match args with
  | [_] => InvokedTo.ShortHelp
  | [_, a1] => if a1 = HELP_FLAG then InvokedTo.Help else InvokedTo.DescribePath a1
  | [_, a1, a2, a3] =>
    if a1 = ADD_FLAG then InvokedTo.AddDescription a2 a3
    else if a1 = PATTERN_FLAG then InvokedTo.AddPattern a2 a3
    else InvokedTo.Unknown
  | _ => InvokedTo.Unknown

/-- parse of src/command.rs: wrap the invocation in a Config, or a
ConfigError for the unknown shape. -/
def parse (args : List String) : Except ConfigError Config :=
  match invocation_pattern args with
  | InvokedTo.ShortHelp =>
    Except.ok { path := none, description := none, help := false,
                short_help := true, add_description := false, add_pattern := false }
  | InvokedTo.Help =>
    Except.ok { path := none, description := none, help := true,
                short_help := false, add_description := false, add_pattern := false }
  | InvokedTo.DescribePath p =>
    Except.ok { path := some p, description := none, help := false,
                short_help := false, add_description := false, add_pattern := false }
  | InvokedTo.AddDescription p d =>
    Except.ok { path := some p, description := some d, help := false,
                short_help := false, add_description := true, add_pattern := false }
  | InvokedTo.AddPattern p d =>
    Except.ok { path := some p, description := some d, help := false,
                short_help := false, add_description := false, add_pattern := true }
  | InvokedTo.Unknown =>
    Except.error { message := "invalid argument list" }

/-- Shapes of argument lists the parser recognises: a bare invocation or a
help flag (both print help), a single path argument, or the add or pattern
flag followed by exactly two arguments. -/
def recognizedShape (args : List String) : Bool :=
  match args with
  | [_] => true
  | [_, _] => true
  | [_, f, _, _] => if f = ADD_FLAG ∨ f = PATTERN_FLAG then true else false
  | _ => false

/-! Process exit behaviour, src/main.rs and src/errors.rs. The functions
help and usage print to stderr and exit with code 1; extract_or_exit of
src/errors.rs turns any error of a fallible step (reading or writing the
config file, resolving the absolute path, the HOME variable, JSON
decoding) into an exit with code 1; a main that runs to completion exits
with code 0. The ioError flag abstracts whether any such fallible step of
the invocation fails. On the Unknown invocation main only prints an error
message to stderr and returns, so the process exits with code 0. -/

/-- Exit code of the process as a function of the argument list and of
whether some I/O or parse step of the invocation fails, modelled from the
match in main of src/main.rs. -/
def mainExitCode (args : List String) (ioError : Bool) : Nat :=
  match invocation_pattern args with
  | InvokedTo.ShortHelp => 1
  | InvokedTo.Help => 1
  | InvokedTo.DescribePath _ => if ioError then 1 else 0
  | InvokedTo.AddDescription _ _ => if ioError then 1 else 0
  | InvokedTo.AddPattern _ _ => if ioError then 1 else 0
  | InvokedTo.Unknown => 0

/-! Helper lemmas about the map and string operations. -/

theorem lookupKV_eq_none_of_not_mem (m : List (Str × Str)) (k : Str)
    (h : k ∉ m.map Prod.fst) : lookupKV m k = none := by
  induction m with
  | nil => rfl
  | cons p rest ih =>
    obtain ⟨pk, pv⟩ := p
    simp only [List.map_cons, List.mem_cons] at h
    push_neg at h
    simp [lookupKV, Ne.symm h.1, ih h.2]

theorem lookupKV_eraseKey_ne (m : List (Str × Str)) (k k' : Str) (h : k' ≠ k) :
    lookupKV (eraseKey m k) k' = lookupKV m k' := by
  induction m with
  | nil => rfl
  | cons p rest ih =>
    obtain ⟨pk, pv⟩ := p
    by_cases hpk : pk = k
    · subst hpk
      have hne : ¬ (pk = k') := fun hc => h (hc.symm.trans rfl)
      simp [eraseKey, lookupKV, hne, ih]
    · simp only [eraseKey, if_neg hpk]
      by_cases hpk' : pk = k'
      · simp [lookupKV, hpk']
      · simp [lookupKV, hpk', ih]

theorem lookupKV_insertKV (m : List (Str × Str)) (k v k' : Str) :
    lookupKV (insertKV m k v) k' = if k = k' then some v else lookupKV m k' := by
  by_cases hk : k = k'
  · simp [insertKV, lookupKV, hk]
  · simp only [insertKV, lookupKV, if_neg hk]
    exact lookupKV_eraseKey_ne m k k' (fun hc => hk hc.symm)

theorem rsplit2_eq_none (sep : Char) (s : Str) (h : sep ∉ s) :
    rsplit2 sep s = none := by
  induction s with
  | nil => rfl
  | cons c rest ih =>
    simp only [List.mem_cons] at h
    push_neg at h
    simp [rsplit2, ih h.2, Ne.symm h.1]

theorem rsplit2_append (sep : Char) (q leaf : Str) (h : sep ∉ leaf) :
    rsplit2 sep (q ++ sep :: leaf) = some (q, leaf) := by
  induction q with
  | nil => simp [rsplit2, rsplit2_eq_none sep leaf h]
  | cons c q' ih => simp [rsplit2, ih]

theorem rsplit2_some_eq (sep : Char) (s p l : Str)
    (h : rsplit2 sep s = some (p, l)) : s = p ++ sep :: l := by
  induction s generalizing p l with
  | nil => simp [rsplit2] at h
  | cons c rest ih =>
    simp only [rsplit2] at h
    cases hrec : rsplit2 sep rest with
    | some pl =>
      obtain ⟨p', l'⟩ := pl
      rw [hrec] at h
      simp only [Option.some.injEq, Prod.mk.injEq] at h
      obtain ⟨hp, hl⟩ := h
      subst hp
      rw [← hl]
      exact congrArg (List.cons c) (ih p' l' hrec)
    | none =>
      rw [hrec] at h
      by_cases hc : c = sep
      · rw [if_pos hc] at h
        simp only [Option.some.injEq, Prod.mk.injEq] at h
        obtain ⟨hp, hl⟩ := h
        subst hp
        rw [← hl, hc]
        rfl
      · rw [if_neg hc] at h
        simp at h

theorem countChar_append (a b : Str) (c : Char) :
    countChar (a ++ b) c = countChar a c + countChar b c := by
  induction a with
  | nil => simp [countChar]
  | cons x rest ih => simp [countChar, ih]; omega

theorem countChar_replaceChar (t : Str) (c : Char) (r : Str) :
    countChar (replaceChar t c r) c = countChar t c * countChar r c := by
  induction t with
  | nil => simp [replaceChar, countChar]
  | cons x rest ih =>
    by_cases hx : x = c
    · subst hx
      simp [replaceChar, countChar, countChar_append, ih]
      ring
    · simp [replaceChar, countChar, hx, countChar_append, ih]

theorem describe_child_of_pattern (d : Describer) (q t leaf : Str)
    (hq : lookupKV d.patterns q = some t) (hleaf : SEPERATOR ∉ leaf)
    (hexact : lookupKV d.descriptions (q ++ SEPERATOR :: leaf) = none) :
    d.describe (q ++ SEPERATOR :: leaf)
      = some (replaceChar t DIRECTORY_PLACEHOLDER leaf) := by
  simp [Describer.describe, hexact, Describer.describe_using_pattern,
    rsplit2_append SEPERATOR q leaf hleaf, hq]

theorem lookupKV_foldl_insertKV (l : List (Str × Str)) (k : Str) :
    ∀ init : List (Str × Str), (l.map Prod.fst).Nodup →
      lookupKV (l.foldl (fun m p => insertKV m p.1 p.2) init) k =
        (match lookupKV l k with
         | some v => some v
         | none => lookupKV init k) := by
  induction l with
  | nil => intro init h; simp [lookupKV]
  | cons p rest ih =>
    intro init h
    obtain ⟨pk, pv⟩ := p
    simp only [List.map_cons, List.nodup_cons] at h
    rw [List.foldl_cons, ih _ h.2]
    by_cases hk : pk = k
    · subst hk
      have hnone : lookupKV rest pk = none :=
        lookupKV_eq_none_of_not_mem rest pk h.1
      simp [lookupKV, hnone, lookupKV_insertKV]
    · simp only [lookupKV, if_neg hk]
      cases hr : lookupKV rest k with
      | some v => simp
      | none =>
        simp [lookupKV_insertKV, hk,
          lookupKV_eraseKey_ne init pk k (fun hc => hk hc.symm)]

theorem lookupKV_hashMapFromEntries (l : List (Str × Str)) (k : Str)
    (h : (l.map Prod.fst).Nodup) :
    lookupKV (hashMapFromEntries l) k = lookupKV l k := by
  rw [hashMapFromEntries, lookupKV_foldl_insertKV l k [] h]
  cases lookupKV l k <;> rfl

theorem asStringEntries_map (l : List (Str × Str)) :
    asStringEntries (l.map (fun p => (p.1, Json.str p.2))) = Except.ok l := by
  induction l with
  | nil => rfl
  | cons p rest ih =>
    obtain ⟨pk, pv⟩ := p
    simp [asStringEntries, ih]

theorem describe_ext (d1 d2 : Describer)
    (hd : ∀ k, lookupKV d1.descriptions k = lookupKV d2.descriptions k)
    (hp : ∀ k, lookupKV d1.patterns k = lookupKV d2.patterns k)
    (p : Str) : d1.describe p = d2.describe p := by
  unfold Describer.describe Describer.describe_using_pattern
  rw [hd p]
  cases lookupKV d2.descriptions p with
  | some v => rfl
  | none =>
    simp only
    cases rsplit2 SEPERATOR p with
    | none => rfl
    | some pl =>
      obtain ⟨parent, leaf⟩ := pl
      simp only
      rw [hp parent]

/-! The claims. -/

/-- C1: for every describer and every path present as a key of the
descriptions map, describe returns exactly the stored value, regardless of
any pattern entry that also matches the parent of the path; the exact
match strictly dominates the pattern match. -/
theorem describe_exact_key_dominates (d : Describer) (p v : Str)
    (h : lookupKV d.descriptions p = some v) :
    d.describe p = some v := by
  simp [Describer.describe, h]

/-- Witness for describe_exact_key_dominates, with a pattern also stored
at the parent of the queried path. -/
theorem describe_exact_key_dominates_witness :
    Describer.describe
      (Describer.new_with [("/a/b".toList, "home".toList)]
        [("/a".toList, "* lives in /a".toList)])
      "/a/b".toList = some "home".toList :=
  describe_exact_key_dominates
    (Describer.new_with [("/a/b".toList, "home".toList)]
      [("/a".toList, "* lives in /a".toList)])
    "/a/b".toList "home".toList (by decide)

/-- C2: for every parent key q of the patterns map with template t and
every leaf without the separator, when the joined path q slash leaf has no
exact entry, describe of it returns t with every occurrence of the place
holder replaced by the leaf (global substitution). -/
theorem describe_pattern_child (d : Describer) (q t leaf : Str)
    (hq : lookupKV d.patterns q = some t)
    (hleaf : SEPERATOR ∉ leaf)
    (hexact : lookupKV d.descriptions (q ++ SEPERATOR :: leaf) = none) :
    d.describe (q ++ SEPERATOR :: leaf)
      = some (replaceChar t DIRECTORY_PLACEHOLDER leaf) :=
  describe_child_of_pattern d q t leaf hq hleaf hexact

/-- Witness for describe_pattern_child, with the multiple-occurrence
template of the spec: the template star-and-star-again applied to the leaf
x yields x-and-x-again. -/
theorem describe_pattern_child_witness :
    Describer.describe
      (Describer.new_with [] [("/p".toList, "* and * again".toList)])
      ("/p".toList ++ SEPERATOR :: "x".toList)
      = some (replaceChar "* and * again".toList DIRECTORY_PLACEHOLDER "x".toList)
    ∧ replaceChar "* and * again".toList DIRECTORY_PLACEHOLDER "x".toList
      = "x and x again".toList :=
  ⟨describe_pattern_child
      (Describer.new_with [] [("/p".toList, "* and * again".toList)])
      "/p".toList "* and * again".toList "x".toList
      (by decide) (by decide) (by decide),
   by decide⟩

/-- C3: patterns never self-apply: describe of a path is unchanged when
the patterns entry keyed by that very path is removed, because the pattern
lookup only ever consults the parent, which is strictly shorter than the
path itself. -/
theorem describe_erase_own_pattern (descs pats : List (Str × Str)) (q : Str) :
    Describer.describe (Describer.new_with descs (eraseKey pats q)) q
      = Describer.describe (Describer.new_with descs pats) q := by
  cases hd : lookupKV descs q with
  | some v => simp [Describer.describe, Describer.new_with, hd]
  | none =>
    simp only [Describer.describe, Describer.new_with, hd]
    cases hs : rsplit2 SEPERATOR q with
    | none => simp [Describer.describe_using_pattern, hs]
    | some pl =>
      obtain ⟨parent, leaf⟩ := pl
      have heq := rsplit2_some_eq SEPERATOR q parent leaf hs
      have hne : parent ≠ q := by
        intro hc
        subst hc
        have hlen := congrArg List.length heq
        simp only [List.length_append, List.length_cons] at hlen
        omega
      simp [Describer.describe_using_pattern, hs,
        lookupKV_eraseKey_ne pats q parent hne]

/-- C4: a path containing no separator and having no exact entry is never
described, even when the whole path is itself a key of the patterns map. -/
theorem describe_no_separator_none (d : Describer) (p : Str)
    (hsep : SEPERATOR ∉ p)
    (hexact : lookupKV d.descriptions p = none) :
    d.describe p = none := by
  simp [Describer.describe, hexact, Describer.describe_using_pattern,
    rsplit2_eq_none SEPERATOR p hsep]

/-- Witness for describe_no_separator_none: the queried path is itself a
patterns key, yet describe returns none. -/
theorem describe_no_separator_none_witness :
    Describer.describe
      (Describer.new_with [] [("dir".toList, "* here".toList)])
      "dir".toList = none :=
  describe_no_separator_none
    (Describer.new_with [] [("dir".toList, "* here".toList)])
    "dir".toList (by decide) (by decide)

/-- C9: frame conditions of the mutating operations, and mutual
independence of the two mappings. Describe is read-only by construction
(it is a pure function of the state). Adding a description changes only
the descriptions binding of the given path, leaving the patterns map
untouched and every other descriptions binding unchanged; adding a
pattern is symmetric; and after adding both at the same path the two
unrelated values coexist. -/
theorem add_operations_frame (d : Describer) (path desc other v1 v2 : Str) :
    (d.add_description path desc).patterns = d.patterns
    ∧ lookupKV (d.add_description path desc).descriptions path = some desc
    ∧ (other ≠ path →
        lookupKV (d.add_description path desc).descriptions other
          = lookupKV d.descriptions other)
    ∧ (d.add_pattern path desc).descriptions = d.descriptions
    ∧ lookupKV (d.add_pattern path desc).patterns path = some desc
    ∧ (other ≠ path →
        lookupKV (d.add_pattern path desc).patterns other
          = lookupKV d.patterns other)
    ∧ lookupKV ((d.add_description path v1).add_pattern path v2).descriptions path
        = some v1
    ∧ lookupKV ((d.add_description path v1).add_pattern path v2).patterns path
        = some v2 := by
  refine ⟨rfl, ?_, ?_, rfl, ?_, ?_, ?_, ?_⟩
  · simp [Describer.add_description, lookupKV_insertKV]
  · intro h
    simp [Describer.add_description, lookupKV_insertKV, Ne.symm h]
  · simp [Describer.add_pattern, lookupKV_insertKV]
  · intro h
    simp [Describer.add_pattern, lookupKV_insertKV, Ne.symm h]
  · simp [Describer.add_pattern, Describer.add_description, lookupKV_insertKV]
  · simp [Describer.add_pattern, Describer.add_description, lookupKV_insertKV]

/-- Witness for add_operations_frame on the empty describer, with the
non-equality hypotheses discharged at distinct concrete paths. -/
theorem add_operations_frame_witness :
    (Describer.new.add_description "/a".toList "d".toList).patterns
        = Describer.new.patterns
    ∧ lookupKV (Describer.new.add_description "/a".toList "d".toList).descriptions
        "/a".toList = some "d".toList
    ∧ lookupKV (Describer.new.add_description "/a".toList "d".toList).descriptions
        "/b".toList = lookupKV Describer.new.descriptions "/b".toList
    ∧ (Describer.new.add_pattern "/a".toList "d".toList).descriptions
        = Describer.new.descriptions
    ∧ lookupKV (Describer.new.add_pattern "/a".toList "d".toList).patterns
        "/a".toList = some "d".toList
    ∧ lookupKV (Describer.new.add_pattern "/a".toList "d".toList).patterns
        "/b".toList = lookupKV Describer.new.patterns "/b".toList
    ∧ lookupKV ((Describer.new.add_description "/a".toList "x".toList).add_pattern
        "/a".toList "y".toList).descriptions "/a".toList = some "x".toList
    ∧ lookupKV ((Describer.new.add_description "/a".toList "x".toList).add_pattern
        "/a".toList "y".toList).patterns "/a".toList = some "y".toList := by
  have h := add_operations_frame Describer.new "/a".toList "d".toList "/b".toList
    "x".toList "y".toList
  exact ⟨h.1, h.2.1, h.2.2.1 (by decide), h.2.2.2.1, h.2.2.2.2.1,
    h.2.2.2.2.2.1 (by decide), h.2.2.2.2.2.2.1, h.2.2.2.2.2.2.2⟩

/-- C10: wildcard substitution is single-pass and non-recursive: when the
leaf itself contains place holder characters, the result is still the
template with each of its place holders replaced once by the leaf
verbatim, and the place holders contributed by the leaf survive in the
output, one copy per template place holder. -/
theorem describe_substitution_single_pass (d : Describer) (q t leaf : Str)
    (hq : lookupKV d.patterns q = some t)
    (hleaf : SEPERATOR ∉ leaf)
    (hstar : DIRECTORY_PLACEHOLDER ∈ leaf)
    (hexact : lookupKV d.descriptions (q ++ SEPERATOR :: leaf) = none) :
    d.describe (q ++ SEPERATOR :: leaf)
      = some (replaceChar t DIRECTORY_PLACEHOLDER leaf)
    ∧ countChar (replaceChar t DIRECTORY_PLACEHOLDER leaf) DIRECTORY_PLACEHOLDER
        = countChar t DIRECTORY_PLACEHOLDER * countChar leaf DIRECTORY_PLACEHOLDER :=
  ⟨describe_child_of_pattern d q t leaf hq hleaf hexact,
   countChar_replaceChar t DIRECTORY_PLACEHOLDER leaf⟩

/-- Witness for describe_substitution_single_pass: the leaf holds a place
holder of its own, which is kept verbatim and not substituted again. -/
theorem describe_substitution_single_pass_witness :
    Describer.describe (Describer.new_with [] [("/p".toList, "* dir".toList)])
      ("/p".toList ++ SEPERATOR :: "a*b".toList)
      = some (replaceChar "* dir".toList DIRECTORY_PLACEHOLDER "a*b".toList)
    ∧ replaceChar "* dir".toList DIRECTORY_PLACEHOLDER "a*b".toList
        = "a*b dir".toList
    ∧ countChar "a*b dir".toList DIRECTORY_PLACEHOLDER = 1 := by
  have h := describe_substitution_single_pass
    (Describer.new_with [] [("/p".toList, "* dir".toList)])
    "/p".toList "* dir".toList "a*b".toList
    (by decide) (by decide) (by decide) (by decide)
  exact ⟨h.1, by decide, by decide⟩

/-- C5: serialization round-trip. For every describer whose maps are
valid materialised hash maps (no duplicate keys), to_json succeeds,
deserializing the serialized value succeeds, and the reconstructed
describer answers every describe query exactly as the original. -/
theorem to_json_round_trip (d : Describer)
    (hd : (d.descriptions.map Prod.fst).Nodup)
    (hp : (d.patterns.map Prod.fst).Nodup) (p : Str) :
    (d.to_json false).toBool = true
    ∧ (describerFromJson (describerToJson d)).toOption.map
        (fun d2 => d2.describe p) = some (d.describe p) := by
  constructor
  · rfl
  · have h1 : describerFromJson (describerToJson d)
        = Except.ok (Describer.new_with (hashMapFromEntries d.descriptions)
            (hashMapFromEntries d.patterns)) := by
      simp [describerFromJson, describerToJson, findField, asStringMap,
        asStringEntries_map, show ¬ (descKey = patKey) by decide]
    rw [h1]
    simp only [Except.toOption, Option.map]
    have h2 : Describer.describe
        (Describer.new_with (hashMapFromEntries d.descriptions)
          (hashMapFromEntries d.patterns)) p = d.describe p := by
      apply describe_ext
      · intro k
        exact lookupKV_hashMapFromEntries d.descriptions k hd
      · intro k
        exact lookupKV_hashMapFromEntries d.patterns k hp
    rw [h2]

/-- Witness for to_json_round_trip at a describer holding one description
and one pattern, queried at a pattern-described child path. -/
theorem to_json_round_trip_witness :
    ((Describer.new_with [("/a/b".toList, "home".toList)]
        [("/a".toList, "* lives in /a".toList)]).to_json false).toBool = true
    ∧ (describerFromJson (describerToJson
        (Describer.new_with [("/a/b".toList, "home".toList)]
          [("/a".toList, "* lives in /a".toList)]))).toOption.map
        (fun d2 => d2.describe "/a/c".toList)
      = some (Describer.describe
          (Describer.new_with [("/a/b".toList, "home".toList)]
            [("/a".toList, "* lives in /a".toList)]) "/a/c".toList) :=
  to_json_round_trip
    (Describer.new_with [("/a/b".toList, "home".toList)]
      [("/a".toList, "* lives in /a".toList)])
    (by decide) (by decide) "/a/c".toList

/-- C6: deserialization accepts a JSON value exactly when it is an object
carrying both the descriptions and the patterns field, each a map whose
values are all strings; every other value, in particular an object with
only a descriptions field, yields a deserialization error and never a
default-empty describer. -/
theorem new_from_json_requires_shape :
    (∀ j, (describerFromJson j).toBool = jsonWellShaped j)
    ∧ (describerFromJson (Json.obj [(descKey, Json.obj [])])).toBool = false := by
  constructor
  · intro j
    cases j with
    | null => rfl
    | bool b => rfl
    | num n => rfl
    | str s => rfl
    | arr xs => rfl
    | obj fields =>
      cases hdf : findField fields descKey with
      | none => simp [describerFromJson, jsonWellShaped, hdf, Except.toBool]
      | some dj =>
        cases hpf : findField fields patKey with
        | none => simp [describerFromJson, jsonWellShaped, hdf, hpf, Except.toBool]
        | some pj =>
          cases hdm : asStringMap dj with
          | error e =>
            simp [describerFromJson, jsonWellShaped, hdf, hpf, hdm, Except.toBool]
          | ok dm =>
            cases hpm : asStringMap pj with
            | error e2 =>
              simp [describerFromJson, jsonWellShaped, hdf, hpf, hdm, hpm, Except.toBool]
            | ok pm =>
              simp [describerFromJson, jsonWellShaped, hdf, hpf, hdm, hpm, Except.toBool]
  · decide

/-- C7: the command-line parser returns the invalid-command error with the
message invalid argument list exactly for the argument lists whose shape
is not recognised: recognised are the bare invocation and the help flag
(both display help), a single path argument, and the add or pattern flag
followed by exactly two arguments; any other arity, or four arguments
behind an unrecognised flag, is rejected. -/
theorem parse_invalid_shape (args : List String) :
    (parse args = Except.error { message := "invalid argument list" })
      ↔ recognizedShape args = false := by
  match args with
  | [] => exact iff_of_true rfl rfl
  | [a] =>
    exact iff_of_false (by simp [parse, invocation_pattern]) (by simp [recognizedShape])
  | [a, b] =>
    by_cases hb : b = HELP_FLAG
    · simp [parse, invocation_pattern, recognizedShape, hb]
    · simp [parse, invocation_pattern, recognizedShape, hb]
  | [a, b, c] => exact iff_of_true rfl rfl
  | [a, b, c, d] =>
    by_cases hb : b = ADD_FLAG
    · simp [parse, invocation_pattern, recognizedShape, hb]
    · by_cases hb2 : b = PATTERN_FLAG
      · have hpa : ¬ (PATTERN_FLAG = ADD_FLAG) := by decide
        simp [parse, invocation_pattern, recognizedShape, hb, hb2, hpa]
      · simp [parse, invocation_pattern, recognizedShape, hb, hb2]
  | a :: b :: c :: d :: e :: rest => exact iff_of_true rfl rfl

/-- Witness for parse_invalid_shape: a three-argument invocation is
rejected with the invalid-argument-list message, and a recognised
single-path invocation is not. -/
theorem parse_invalid_shape_witness :
    parse ["def", "a", "b"] = Except.error { message := "invalid argument list" }
    ∧ ¬ (parse ["def", "/x"] = Except.error { message := "invalid argument list" }) :=
  ⟨(parse_invalid_shape ["def", "a", "b"]).mpr (by decide),
   fun h => absurd ((parse_invalid_shape ["def", "/x"]).mp h) (by decide)⟩

/-- C8: evaluation of the exit-code model of main. A normal describe or
add invocation exits with code 0 and help display and extracted errors
exit with code 1, as the claim states; but an argument list of invalid
shape also exits with code 0, because main only prints the error message
for the Unknown invocation and returns without calling process exit,
contradicting the claim and the spec. -/
theorem main_exit_code_eval :
    mainExitCode ["def", "a", "b"] false = 0
    ∧ mainExitCode ["def", "a", "b"] true = 0
    ∧ mainExitCode ["def", "/x"] false = 0
    ∧ mainExitCode ["def", "-add", "/x", "d"] false = 0
    ∧ mainExitCode ["def", "-pattern", "/x", "d"] false = 0
    ∧ mainExitCode ["def"] false = 1
    ∧ mainExitCode ["def", "-help"] false = 1
    ∧ mainExitCode ["def", "/x"] true = 1
    ∧ mainExitCode ["def", "-add", "/x", "d"] true = 1 := by
  decide
